import Mathlib

/-!
Verification development for the multiplayer bingo session engine
(`server.js` plus an earlier variant of the same server).

Shallow embedding conventions:
* JS `Set` objects (`markedCells`) are modelled as `List Nat` used through
  membership (`contains`); insertion appends when absent, matching JS `Set`
  iteration order.
* JS `Map` objects keyed by player id are modelled as association lists that
  keep insertion order; `set` on an existing key replaces in place, matching
  JS `Map` semantics.
* `Math.random`-driven draws are supplied as explicit oracle inputs.
-/

namespace Bingo

/-! ## Win detection, `server.js` lines 71-131 -/

/-- `checkRows` of `server.js`: some row is complete, index 12 always free. -/
def checkRows (markedCells : List Nat) : Bool :=
  (List.range 5).any fun row =>
    (List.range 5).all fun col =>
      decide (row * 5 + col = 12) || markedCells.contains (row * 5 + col)

/-- `checkColumns` of `server.js`: some column is complete, index 12 always free. -/
def checkColumns (markedCells : List Nat) : Bool :=
  (List.range 5).any fun col =>
    (List.range 5).all fun row =>
      decide (row * 5 + col = 12) || markedCells.contains (row * 5 + col)

/-- `checkBothDiagonals` of `server.js`: both explicit diagonal index lists complete. -/
def checkBothDiagonals (markedCells : List Nat) : Bool :=
  ([0, 6, 12, 18, 24].all fun index =>
      decide (index = 12) || markedCells.contains index) &&
  ([4, 8, 12, 16, 20].all fun index =>
      decide (index = 12) || markedCells.contains index)

/-- `checkFourCorners` of `server.js`: `corners.every(index => markedCells.has(index))`. -/
def checkFourCorners (markedCells : List Nat) : Bool :=
  [0, 4, 20, 24].all fun index => markedCells.contains index

/-- `checkWinCondition` of `server.js`: row/column, or both diagonals, or four corners. -/
def checkWinCondition (markedCells : List Nat) : Bool :=
  (checkRows markedCells || checkColumns markedCells) ||
    checkBothDiagonals markedCells || checkFourCorners markedCells

/-! ## Win detection, the earlier server variant (`src/unnamed/part_000` lines 72-169) -/

/-- `checkWinCondition` of the earlier variant: rows and columns by the same loops,
diagonals computed arithmetically as `i*5+i` and `i*5+(4-i)` over `i < 5`. -/
def checkWinConditionAlt (markedCells : List Nat) : Bool :=
  let hasCompleteRow := (List.range 5).any fun row =>
    (List.range 5).all fun col =>
      decide (row * 5 + col = 12) || markedCells.contains (row * 5 + col)
  let hasCompleteColumn := (List.range 5).any fun col =>
    (List.range 5).all fun row =>
      decide (row * 5 + col = 12) || markedCells.contains (row * 5 + col)
  let condition1 := hasCompleteRow || hasCompleteColumn
  let mainDiagonalComplete := (List.range 5).all fun i =>
    decide (i * 5 + i = 12) || markedCells.contains (i * 5 + i)
  let antiDiagonalComplete := (List.range 5).all fun i =>
    decide (i * 5 + (4 - i) = 12) || markedCells.contains (i * 5 + (4 - i))
  let condition2 := mainDiagonalComplete && antiDiagonalComplete
  let condition3 := [0, 4, 20, 24].all fun index => markedCells.contains index
  condition1 || condition2 || condition3

/-- A matched winning pattern, as built by `getWinningPattern` in the earlier
variant (objects `{type, cells, index}` / `{type, cells, which}`). -/
inductive Pattern
  | rowPat (index : Nat) (cells : List Nat)
  | columnPat (index : Nat) (cells : List Nat)
  | diagonalPat (isMain : Bool) (cells : List Nat)
  | cornersPat (cells : List Nat)
deriving DecidableEq, Repr

/-- `getWinningPattern` of the earlier variant: collects every complete row,
every complete column, each complete diagonal individually, and four corners. -/
def getWinningPattern (markedCells : List Nat) : List Pattern :=
  let rowPatterns := (List.range 5).filterMap fun row =>
    if (List.range 5).all (fun col =>
        decide (row * 5 + col = 12) || markedCells.contains (row * 5 + col)) then
      some (Pattern.rowPat row ((List.range 5).map fun col => row * 5 + col))
    else none
  let columnPatterns := (List.range 5).filterMap fun col =>
    if (List.range 5).all (fun row =>
        decide (row * 5 + col = 12) || markedCells.contains (row * 5 + col)) then
      some (Pattern.columnPat col ((List.range 5).map fun row => row * 5 + col))
    else none
  let mainDiagonal : List Nat := [0, 6, 12, 18, 24]
  let antiDiagonal : List Nat := [4, 8, 12, 16, 20]
  let mainComplete := mainDiagonal.all fun index =>
    decide (index = 12) || markedCells.contains index
  let antiComplete := antiDiagonal.all fun index =>
    decide (index = 12) || markedCells.contains index
  let diagonalPatterns :=
    (if mainComplete then [Pattern.diagonalPat true mainDiagonal] else []) ++
    (if antiComplete then [Pattern.diagonalPat false antiDiagonal] else [])
  let corners : List Nat := [0, 4, 20, 24]
  let cornerPatterns :=
    if corners.all (fun index => markedCells.contains index) then
      [Pattern.cornersPat corners]
    else []
  rowPatterns ++ columnPatterns ++ diagonalPatterns ++ cornerPatterns

/-! ## Spec-side win predicate (the wording of the specification, for C2) -/

/-- Index `i` counts as marked when it is the FREE index 12 or lies in `S`. -/
def Marked12 (S : List Nat) (i : Nat) : Prop := i = 12 ∨ i ∈ S

/-- The winning condition exactly as the specification words it: a full row,
a full column, both diagonals simultaneously, or all four corners in `S`. -/
def SpecWin (S : List Nat) : Prop :=
  (∃ r < 5, ∀ c < 5, Marked12 S (5 * r + c)) ∨
  (∃ c < 5, ∀ r < 5, Marked12 S (c + 5 * r)) ∨
  ((∀ i ∈ ([0, 6, 12, 18, 24] : List Nat), Marked12 S i) ∧
    (∀ i ∈ ([4, 8, 12, 16, 20] : List Nat), Marked12 S i)) ∨
  (∀ i ∈ ([0, 4, 20, 24] : List Nat), i ∈ S)

/-! ## C2: `checkWinCondition` against the specification's wording -/

theorem checkRows_iff (S : List Nat) :
    checkRows S = true ↔ ∃ r < 5, ∀ c < 5, Marked12 S (5 * r + c) := by
  simp only [checkRows, Marked12, List.any_eq_true, List.all_eq_true, List.mem_range,
    Bool.or_eq_true, decide_eq_true_eq, List.elem_iff]
  constructor
  · rintro ⟨r, hr, h⟩
    refine ⟨r, hr, fun c hc => ?_⟩
    have := h c hc
    rwa [Nat.mul_comm] at this
  · rintro ⟨r, hr, h⟩
    refine ⟨r, hr, fun c hc => ?_⟩
    have := h c hc
    rwa [Nat.mul_comm r 5]

theorem checkColumns_iff (S : List Nat) :
    checkColumns S = true ↔ ∃ c < 5, ∀ r < 5, Marked12 S (c + 5 * r) := by
  simp only [checkColumns, Marked12, List.any_eq_true, List.all_eq_true, List.mem_range,
    Bool.or_eq_true, decide_eq_true_eq, List.elem_iff]
  constructor
  · rintro ⟨c, hc, h⟩
    refine ⟨c, hc, fun r hr => ?_⟩
    have := h r hr
    have e : r * 5 + c = c + 5 * r := by ring
    rwa [e] at this
  · rintro ⟨c, hc, h⟩
    refine ⟨c, hc, fun r hr => ?_⟩
    have := h r hr
    have e : r * 5 + c = c + 5 * r := by ring
    rwa [e]

theorem checkBothDiagonals_iff (S : List Nat) :
    checkBothDiagonals S = true ↔
      (∀ i ∈ ([0, 6, 12, 18, 24] : List Nat), Marked12 S i) ∧
      (∀ i ∈ ([4, 8, 12, 16, 20] : List Nat), Marked12 S i) := by
  simp only [checkBothDiagonals, Marked12, Bool.and_eq_true, List.all_eq_true,
    Bool.or_eq_true, decide_eq_true_eq, List.elem_iff]

theorem checkFourCorners_iff (S : List Nat) :
    checkFourCorners S = true ↔ ∀ i ∈ ([0, 4, 20, 24] : List Nat), i ∈ S := by
  simp only [checkFourCorners, List.all_eq_true, List.elem_iff]

/-- C2: for every set `S` of marked cell indices, `checkWinCondition S` returns
`true` exactly when, with index 12 treated as implicitly marked, some row is
fully marked, some column is fully marked, both diagonals are simultaneously
fully marked, or all four corners `{0, 4, 20, 24}` are in `S` (the corners test
does not involve index 12). -/
theorem c2_checkWinCondition_iff_SpecWin (S : List Nat) :
    checkWinCondition S = true ↔ SpecWin S := by
  unfold checkWinCondition SpecWin
  simp only [Bool.or_eq_true, checkRows_iff, checkColumns_iff, checkBothDiagonals_iff,
    checkFourCorners_iff]
  constructor
  · rintro (((h | h) | h) | h)
    · exact Or.inl h
    · exact Or.inr (Or.inl h)
    · exact Or.inr (Or.inr (Or.inl h))
    · exact Or.inr (Or.inr (Or.inr h))
  · rintro (h | h | h | h)
    · exact Or.inl (Or.inl (Or.inl h))
    · exact Or.inl (Or.inl (Or.inr h))
    · exact Or.inl (Or.inr h)
    · exact Or.inr h

/-! ## C9: agreement of the two win-detection implementations -/

theorem checkWinCondition_eq_alt (S : List Nat) :
    checkWinCondition S = checkWinConditionAlt S := rfl

theorem getWinningPattern_ne_nil_of_win (S : List Nat)
    (h : checkWinCondition S = true) : getWinningPattern S ≠ [] := by
  unfold checkWinCondition at h
  simp only [Bool.or_eq_true] at h
  simp only [getWinningPattern]
  rcases h with ((hr | hc) | hd) | hco
  · unfold checkRows at hr
    rw [List.any_eq_true] at hr
    obtain ⟨row, hmem, hall⟩ := hr
    apply @List.ne_nil_of_mem _ (Pattern.rowPat row ((List.range 5).map fun col => row * 5 + col)) _
    apply List.mem_append_left
    apply List.mem_append_left
    apply List.mem_append_left
    rw [List.mem_filterMap]
    exact ⟨row, hmem, by rw [if_pos hall]⟩
  · unfold checkColumns at hc
    rw [List.any_eq_true] at hc
    obtain ⟨col, hmem, hall⟩ := hc
    apply @List.ne_nil_of_mem _ (Pattern.columnPat col ((List.range 5).map fun row => row * 5 + col)) _
    apply List.mem_append_left
    apply List.mem_append_left
    apply List.mem_append_right
    rw [List.mem_filterMap]
    exact ⟨col, hmem, by rw [if_pos hall]⟩
  · unfold checkBothDiagonals at hd
    rw [Bool.and_eq_true] at hd
    apply @List.ne_nil_of_mem _ (Pattern.diagonalPat true [0, 6, 12, 18, 24]) _
    apply List.mem_append_left
    apply List.mem_append_right
    apply List.mem_append_left
    rw [if_pos hd.1]
    exact List.mem_singleton_self _
  · unfold checkFourCorners at hco
    apply @List.ne_nil_of_mem _ (Pattern.cornersPat [0, 4, 20, 24]) _
    apply List.mem_append_right
    rw [if_pos hco]
    exact List.mem_singleton_self _

/-- C9 counterexample: with only the main diagonal marked (and no FREE cell in
the set), both `checkWinCondition` implementations report no win, yet
`getWinningPattern` returns a non-empty pattern list — so the claimed
equivalence between a `true` result and a non-empty pattern list fails. -/
theorem c9_counterexample :
    checkWinCondition [0, 6, 18, 24] = false ∧
    checkWinConditionAlt [0, 6, 18, 24] = false ∧
    getWinningPattern [0, 6, 18, 24] ≠ [] := by decide

/-- C9 (amended): the two `checkWinCondition` implementations agree on every
input, and a `true` result implies `getWinningPattern` returns a non-empty
list; the converse fails, since `getWinningPattern` also reports a single
complete diagonal, which `checkWinCondition` alone does not accept. -/
theorem c9_win_detection_agreement (S : List Nat) :
    checkWinCondition S = checkWinConditionAlt S ∧
      (checkWinCondition S = true → getWinningPattern S ≠ []) :=
  ⟨checkWinCondition_eq_alt S, getWinningPattern_ne_nil_of_win S⟩

/-- C9 witness: the amended statement evaluated on the fully marked first row. -/
theorem c9_win_detection_agreement_witness :
    checkWinCondition [0, 1, 2, 3, 4] = checkWinConditionAlt [0, 1, 2, 3, 4] ∧
      getWinningPattern [0, 1, 2, 3, 4] ≠ [] :=
  ⟨(c9_win_detection_agreement [0, 1, 2, 3, 4]).1,
    (c9_win_detection_agreement [0, 1, 2, 3, 4]).2 (by decide)⟩

/-! ## Card generation (`server.js` lines 28-68)

`Math.random` draws are supplied as an explicit oracle list; each draw `d`
yields the integer `min + d % (max - min + 1)`, exactly the value set of
`Math.floor(Math.random() * (max - min + 1)) + min`.  The rejection-sampling
`while` loop of `generateColumnNumbers` becomes structural recursion on the
oracle list, returning `none` when the finite oracle is exhausted early. -/

/-- One cell of a card: `number` is `none` for the FREE center cell
(the source stores the string `FREE` there). -/
structure Cell where
  number : Option Nat
  isFree : Bool
  row : Nat
  col : Nat
  index : Nat
deriving DecidableEq, Repr

/-- A card is the list of 25 cells in the push order of the source
(column-major), each cell carrying its row-major `index` field. -/
abbrev Card := List Cell

/-- The rejection-sampling loop of `generateColumnNumbers`: keep drawing until
five distinct numbers in `[lo, hi]` have been collected; `none` when the
modelled oracle runs out before that. -/
def fillColumnNumbers (lo hi : Nat) : List Nat → List Nat → Option (List Nat)
  | [], acc => if acc.length ≥ 5 then some acc else none
  | d :: rest, acc =>
    if acc.length ≥ 5 then some acc
    else
      let num := lo + d % (hi - lo + 1)
      fillColumnNumbers lo hi rest (if acc.contains num then acc else acc ++ [num])

/-- `generateColumnNumbers` of `server.js`: the rejection-sampling loop followed
by the ascending `numbers.sort((a, b) => a - b)`. -/
def generateColumnNumbers (lo hi : Nat) (draws : List Nat) : Option (List Nat) :=
  (fillColumnNumbers lo hi draws []).map (List.insertionSort (· ≤ ·))

/-- The fixed column ranges `B:1-15, I:16-30, N:31-45, G:46-60, O:61-75`. -/
def colRange : Nat → Nat × Nat
  | 0 => (1, 15)
  | 1 => (16, 30)
  | 2 => (31, 45)
  | 3 => (46, 60)
  | _ => (61, 75)

/-- The five cells pushed for column `col` (row 2 of column 2 is FREE); the
`index` field is the row-major index `row * 5 + col`. -/
def mkColumn (col : Nat) (numbers : List Nat) : List Cell :=
  (List.range 5).map fun row =>
    if row = 2 ∧ col = 2 then
      { number := none, isFree := true, row := row, col := col, index := row * 5 + col }
    else
      { number := some (numbers.getD row 0), isFree := false,
        row := row, col := col, index := row * 5 + col }

/-- `generateBingoCard` of `server.js` lines 28-50, with one oracle list per
column: five columns of five distinct ranged numbers, FREE at row 2, col 2. -/
def generateBingoCard (d0 d1 d2 d3 d4 : List Nat) : Option Card := do
  let n0 ← generateColumnNumbers (colRange 0).1 (colRange 0).2 d0
  let n1 ← generateColumnNumbers (colRange 1).1 (colRange 1).2 d1
  let n2 ← generateColumnNumbers (colRange 2).1 (colRange 2).2 d2
  let n3 ← generateColumnNumbers (colRange 3).1 (colRange 3).2 d3
  let n4 ← generateColumnNumbers (colRange 4).1 (colRange 4).2 d4
  pure (mkColumn 0 n0 ++ mkColumn 1 n1 ++ mkColumn 2 n2 ++ mkColumn 3 n3 ++ mkColumn 4 n4)

/-! ## Game room state (`server.js` lines 22-25, 181-190, 260-271)

One room is studied at a time: `ServerState.room` is `gameRooms.get(gameId)`
(`none` when the room is absent or deleted) and `intervalActive` is
`activeIntervals.has(gameId)`.  Handlers take the resolved `playerId` directly;
the source resolves it through `playerConnections.get(socket.id)` first and
silently returns when the connection is unknown. -/

/-- A player object as built in `joinGame` (`server.js` lines 261-271). -/
structure Player where
  id : String
  name : String
  socketId : String
  card : Option Card
  markedCells : List Nat
  isHost : Bool
  hasSelectedCard : Bool
  hasClaimedBingo : Bool
  joinedAt : Nat
deriving DecidableEq, Repr

/-- A claim object as built in the `claim-bingo` handler (lines 484-489). -/
structure BingoClaim where
  playerId : String
  playerName : String
  timestamp : Nat
  markedCells : List Nat
deriving DecidableEq, Repr

/-- A game room object (`server.js` lines 181-190 / 212-221). -/
structure GameRoom where
  id : String
  host : String
  players : List Player
  calledNumbers : List Nat
  isGameActive : Bool
  createdAt : Nat
  cardPool : List Card
  bingoClaims : List BingoClaim
  winner : Option String := none
  startedAt : Option Nat := none
  finishedAt : Option Nat := none
deriving DecidableEq, Repr

/-- The per-room slice of the process state. -/
structure ServerState where
  room : Option GameRoom
  intervalActive : Bool
deriving DecidableEq, Repr

/-- JS `Map.get` for a map modelled as a keyed association list. -/
def jsGet {α : Type} (key : α → String) (m : List α) (k : String) : Option α :=
  m.find? fun x => key x == k

/-- JS `Map.set`: replace in place when the key exists (keeping insertion
order, as JS `Map` iteration does), append otherwise. -/
def jsSet {α : Type} (key : α → String) (m : List α) (v : α) : List α :=
  if m.any (fun x => key x == key v) then
    m.map fun x => if key x == key v then v else x
  else m ++ [v]

/-- JS `Map.delete`. -/
def jsDelete {α : Type} (key : α → String) (m : List α) (k : String) : List α :=
  m.filter fun x => ¬ key x == k

/-- `gameRoom.players.get(playerId)`. -/
def playersGet (ps : List Player) (playerId : String) : Option Player :=
  jsGet Player.id ps playerId

/-- `gameRoom.players.set(playerId, player)`. -/
def playersSet (ps : List Player) (p : Player) : List Player :=
  jsSet Player.id ps p

/-- `gameRoom.players.delete(playerId)`. -/
def playersDelete (ps : List Player) (playerId : String) : List Player :=
  jsDelete Player.id ps playerId

/-- `gameRoom.bingoClaims.get(playerId)`. -/
def claimsGet (cs : List BingoClaim) (playerId : String) : Option BingoClaim :=
  jsGet BingoClaim.playerId cs playerId

/-- `gameRoom.bingoClaims.set(playerId, claim)`. -/
def claimsSet (cs : List BingoClaim) (c : BingoClaim) : List BingoClaim :=
  jsSet BingoClaim.playerId cs c

/-- `gameRoom.bingoClaims.delete(playerId)`. -/
def claimsDelete (cs : List BingoClaim) (playerId : String) : List BingoClaim :=
  jsDelete BingoClaim.playerId cs playerId

/-- Who an outbound event is sent to: `socket.emit` (the acting connection),
`socket.to(gameId).emit` (everyone else in the room), `io.to(gameId).emit`
(the whole room). -/
inductive Audience
  | toSelf
  | toOthers
  | toRoom
deriving DecidableEq, Repr

/-- Outbound events of `server.js`; payloads are kept where a claim refers to
them.  `bingoVerifiedWithPatterns` is the event shape the specification
describes for verification (winner plus matched-pattern list); the handlers
never construct it. -/
inductive OutEvent
  | errorMsg (message : String)
  | gameCreated (gameId : String)
  | cardPoolSent
  | gameJoined
  | playerJoined (playerId : String)
  | cardSelected (cardId : Nat)
  | playerCardSelected (playerId : String)
  | allPlayersReady
  | gameStarted (startedAt : Nat)
  | cellMarked (cellIndex markedCount : Nat)
  | playerMarkedCell (playerId : String) (markedCount : Nat)
  | bingoClaimed (playerId playerName : String) (timestamp : Nat) (markedCells : List Nat)
  | bingoVerified (winner : Option (String × String × List Nat)) (isValid : Bool)
  | bingoVerifiedWithPatterns (winnerId : String) (patterns : List Pattern)
  | newHost (hostId : String)
  | playerLeft (playerId : String)
  | numberCalled (number totalCalled : Nat)
deriving DecidableEq, Repr

/-- An outbound event with its audience. -/
abbrev Emit := Audience × OutEvent

/-! ## Event handlers (`server.js` lines 204-697) -/

/-- `joinGame` (`server.js` lines 242-328): capacity check first, then the
active-game check, then insertion of a fresh player whose `markedCells`
initially holds exactly the FREE index 12. -/
def joinGame (s : ServerState) (socketId playerId playerName : String) (now : Nat) :
    ServerState × List Emit :=
  match s.room with
  | none => (s, [(.toSelf, .errorMsg "Game not found!")])
  | some gameRoom =>
    if gameRoom.players.length ≥ 8 then
      (s, [(.toSelf, .errorMsg "Game is full! Maximum 8 players allowed.")])
    else if gameRoom.isGameActive then
      (s, [(.toSelf, .errorMsg "Game has already started!")])
    else
      let player : Player :=
        { id := playerId, name := playerName, socketId := socketId, card := none,
          markedCells := [12], isHost := playerId == gameRoom.host,
          hasSelectedCard := false, hasClaimedBingo := false, joinedAt := now }
      let gameRoom := { gameRoom with players := playersSet gameRoom.players player }
      ({ s with room := some gameRoom },
        [(.toSelf, .cardPoolSent), (.toSelf, .gameJoined), (.toOthers, .playerJoined playerId)])

/-- The `create-game` handler (lines 208-234): build the room (card pool is the
oracle-supplied outcome of `generateCardPool`), join the host, emit
`game-created`. -/
def createGame (hostId hostName socketId : String) (pool : List Card) (now : Nat)
    (gameId : String) : ServerState × List Emit :=
  let gameRoom : GameRoom :=
    { id := gameId, host := hostId, players := [], calledNumbers := [],
      isGameActive := false, createdAt := now, cardPool := pool, bingoClaims := [] }
  let s : ServerState := { room := some gameRoom, intervalActive := false }
  let (s, emits) := joinGame s socketId hostId hostName now
  (s, emits ++ [(.toSelf, .gameCreated gameId)])

/-- The `select-card` handler (lines 331-371). -/
def selectCard (s : ServerState) (playerId : String) (cardId : Nat) :
    ServerState × List Emit :=
  match s.room with
  | none => (s, [])
  | some gameRoom =>
    match playersGet gameRoom.players playerId with
    | none => (s, [])
    | some player =>
      if player.hasSelectedCard then
        (s, [(.toSelf, .errorMsg "You have already selected a card!")])
      else if gameRoom.cardPool.length ≤ cardId then
        (s, [(.toSelf, .errorMsg "Invalid card selection!")])
      else
        let player := { player with card := gameRoom.cardPool[cardId]?,
                                    hasSelectedCard := true }
        let gameRoom := { gameRoom with players := playersSet gameRoom.players player }
        let readyEmits : List Emit :=
          if gameRoom.players.all (fun p => p.hasSelectedCard) then
            [(.toRoom, .allPlayersReady)]
          else []
        ({ s with room := some gameRoom },
          [(.toSelf, .cardSelected cardId), (.toOthers, .playerCardSelected playerId)] ++
            readyEmits)

/-- The `start-game` handler (lines 374-410): host-only, at least two players,
everyone has a card; note there is no check of the current status. -/
def startGame (s : ServerState) (playerId : String) (now : Nat) :
    ServerState × List Emit :=
  match s.room with
  | none => (s, [(.toSelf, .errorMsg "Only the host can start the game!")])
  | some gameRoom =>
    if ¬ gameRoom.host == playerId then
      (s, [(.toSelf, .errorMsg "Only the host can start the game!")])
    else if gameRoom.players.length < 2 then
      (s, [(.toSelf, .errorMsg "Need at least 2 players to start!")])
    else if ¬ gameRoom.players.all (fun p => p.hasSelectedCard) then
      (s, [(.toSelf, .errorMsg "Not all players have selected cards yet!")])
    else
      let gameRoom := { gameRoom with isGameActive := true, startedAt := some now }
      ({ room := some gameRoom, intervalActive := true }, [(.toRoom, .gameStarted now)])

/-- The `mark-cell` handler (lines 413-460): silent return when the room is
missing or inactive, the player is missing, or the player has no card; explicit
errors for a bad cell, an uncalled number, or a repeated mark. -/
def markCell (s : ServerState) (playerId : String) (cellIndex : Nat) :
    ServerState × List Emit :=
  match s.room with
  | none => (s, [])
  | some gameRoom =>
    if ¬ gameRoom.isGameActive then (s, [])
    else
      match playersGet gameRoom.players playerId with
      | none => (s, [])
      | some player =>
        if ¬ player.hasSelectedCard then (s, [])
        else
          match (player.card.getD []).find? (fun c => c.index == cellIndex) with
          | none => (s, [(.toSelf, .errorMsg "Invalid cell!")])
          | some cell =>
            if cell.isFree then (s, [(.toSelf, .errorMsg "Invalid cell!")])
            else
              let n := cell.number.getD 0
              if ¬ gameRoom.calledNumbers.contains n then
                (s, [(.toSelf, .errorMsg s!"Number {n} has not been called yet!")])
              else if player.markedCells.contains cellIndex then
                (s, [(.toSelf, .errorMsg "Cell already marked!")])
              else
                let player := { player with markedCells := player.markedCells ++ [cellIndex] }
                let gameRoom := { gameRoom with players := playersSet gameRoom.players player }
                ({ s with room := some gameRoom },
                  [(.toSelf, .cellMarked cellIndex player.markedCells.length),
                    (.toOthers, .playerMarkedCell playerId player.markedCells.length)])

/-- The `claim-bingo` handler (lines 463-500): silent return when the room is
missing/inactive or the player is missing; duplicate claims are refused; a
claim is accepted exactly when `checkWinCondition` passes on the player's
marked cells. -/
def claimBingo (s : ServerState) (playerId : String) (now : Nat) :
    ServerState × List Emit :=
  match s.room with
  | none => (s, [])
  | some gameRoom =>
    if ¬ gameRoom.isGameActive then (s, [])
    else
      match playersGet gameRoom.players playerId with
      | none => (s, [])
      | some player =>
        if player.hasClaimedBingo then
          (s, [(.toSelf, .errorMsg "You have already claimed Bingo!")])
        else if checkWinCondition player.markedCells then
          let player := { player with hasClaimedBingo := true }
          let claim : BingoClaim :=
            { playerId := player.id, playerName := player.name, timestamp := now,
              markedCells := player.markedCells }
          let gameRoom := { gameRoom with
            players := playersSet gameRoom.players player,
            bingoClaims := claimsSet gameRoom.bingoClaims claim }
          ({ s with room := some gameRoom },
            [(.toRoom, .bingoClaimed claim.playerId claim.playerName now claim.markedCells)])
        else
          (s, [(.toSelf, .errorMsg "No valid winning pattern found!")])

/-- The `verify-bingo` handler (lines 503-556): host-only; requires a stored
claim; `isValid` finishes the room (winner set, interval cleared) and
broadcasts the claim's identity and marked-cells snapshot, while `¬ isValid`
drops the claim and clears the claimant's flag; there is no status check. -/
def verifyBingo (s : ServerState) (requesterId targetPlayerId : String) (isValid : Bool)
    (now : Nat) : ServerState × List Emit :=
  match s.room with
  | none => (s, [(.toSelf, .errorMsg "Only the host can verify Bingo!")])
  | some gameRoom =>
    if ¬ gameRoom.host == requesterId then
      (s, [(.toSelf, .errorMsg "Only the host can verify Bingo!")])
    else
      match claimsGet gameRoom.bingoClaims targetPlayerId with
      | none => (s, [(.toSelf, .errorMsg "No Bingo claim found for this player!")])
      | some claim =>
        if isValid then
          let gameRoom := { gameRoom with
            isGameActive := false, winner := some targetPlayerId, finishedAt := some now }
          ({ room := some gameRoom, intervalActive := false },
            [(.toRoom, .bingoVerified
                (some (claim.playerId, claim.playerName, claim.markedCells)) true)])
        else
          let players :=
            match playersGet gameRoom.players targetPlayerId with
            | some p => playersSet gameRoom.players { p with hasClaimedBingo := false }
            | none => gameRoom.players
          let gameRoom := { gameRoom with
            bingoClaims := claimsDelete gameRoom.bingoClaims targetPlayerId,
            players := players }
          ({ s with room := some gameRoom }, [(.toRoom, .bingoVerified none false)])

/-- The `leave-game` / disconnect path (lines 583-646): remove the player,
delete an emptied room (cancelling its interval), otherwise promote the first
remaining player when the host left. -/
def leaveGame (s : ServerState) (playerId : String) : ServerState × List Emit :=
  match s.room with
  | none => (s, [])
  | some gameRoom =>
    let players := playersDelete gameRoom.players playerId
    if players.length = 0 then
      ({ room := none, intervalActive := false }, [(.toOthers, .playerLeft playerId)])
    else if playerId == gameRoom.host then
      match players with
      | [] => ({ room := none, intervalActive := false }, [(.toOthers, .playerLeft playerId)])
      | newHost :: _ =>
        let gameRoom := { gameRoom with
          host := newHost.id, players := playersSet players { newHost with isHost := true } }
        ({ s with room := some gameRoom },
          [(.toOthers, .playerLeft playerId), (.toRoom, .newHost newHost.id)])
    else
      ({ s with room := some { gameRoom with players := players } },
        [(.toOthers, .playerLeft playerId)])

/-- The retry loop of `callNextNumber` (lines 673-676): the first oracle draw
whose value `d % 75 + 1` is not already called. -/
def drawFresh (called : List Nat) (draws : List Nat) : Option Nat :=
  (draws.map (fun d => d % 75 + 1)).find? (fun n => ¬ called.contains n)

/-- `callNextNumber` (lines 669-687): re-checks activity, draws a fresh number
in `[1, 75]`, appends it and broadcasts it.  The source redraws forever; the
model stops unchanged if the finite oracle never produces a fresh number. -/
def callNextNumber (s : ServerState) (draws : List Nat) : ServerState × List Emit :=
  match s.room with
  | none => (s, [])
  | some gameRoom =>
    if ¬ gameRoom.isGameActive then (s, [])
    else
      match drawFresh gameRoom.calledNumbers draws with
      | none => (s, [])
      | some number =>
        let gameRoom := { gameRoom with calledNumbers := gameRoom.calledNumbers ++ [number] }
        ({ s with room := some gameRoom },
          [(.toRoom, .numberCalled number gameRoom.calledNumbers.length)])

/-- One tick of the `startNumberCalling` interval (lines 657-664): while the
room is active and fewer than 75 numbers are called, call the next number;
otherwise the interval clears itself.  A tick can only happen while the
interval is registered. -/
def numberTick (s : ServerState) (draws : List Nat) : ServerState × List Emit :=
  if s.intervalActive then
    match s.room with
    | some gameRoom =>
      if gameRoom.isGameActive ∧ gameRoom.calledNumbers.length < 75 then
        callNextNumber s draws
      else ({ s with intervalActive := false }, [])
    | none => ({ s with intervalActive := false }, [])
  else (s, [])

/-- The inbound events a connected client (or the interval timer) can produce
for one room. -/
inductive GameEvent
  | join (socketId playerId playerName : String) (now : Nat)
  | select (playerId : String) (cardId : Nat)
  | start (playerId : String) (now : Nat)
  | mark (playerId : String) (cellIndex : Nat)
  | claim (playerId : String) (now : Nat)
  | verify (requesterId targetPlayerId : String) (isValid : Bool) (now : Nat)
  | leave (playerId : String)
  | tick (draws : List Nat)
deriving DecidableEq, Repr

/-- Dispatch of one inbound event to its handler. -/
def handleEvent (s : ServerState) : GameEvent → ServerState × List Emit
  | .join socketId playerId playerName now => joinGame s socketId playerId playerName now
  | .select playerId cardId => selectCard s playerId cardId
  | .start playerId now => startGame s playerId now
  | .mark playerId cellIndex => markCell s playerId cellIndex
  | .claim playerId now => claimBingo s playerId now
  | .verify requesterId targetPlayerId isValid now =>
      verifyBingo s requesterId targetPlayerId isValid now
  | .leave playerId => leaveGame s playerId
  | .tick draws => numberTick s draws

/-- Run a sequence of events, keeping only the final state. -/
def runEvents (s : ServerState) : List GameEvent → ServerState
  | [] => s
  | e :: es => runEvents (handleEvent s e).1 es

/-- The spec-level status of a room: `isGameActive` means Active, a set winner
with the game no longer active means Finished, otherwise Waiting. -/
inductive RoomStatus
  | waiting
  | active
  | finished
deriving DecidableEq, Repr

/-- Status read off the room's fields. -/
def roomStatus (r : GameRoom) : RoomStatus :=
  if r.isGameActive then .active
  else if r.winner.isSome then .finished
  else .waiting

/-! ## Lemmas about the JS `Map` model -/

theorem key_of_jsGet {α : Type} {key : α → String} {m : List α} {k : String} {v : α}
    (h : jsGet key m k = some v) : key v = k := by
  unfold jsGet at h
  simpa using List.find?_some h

theorem mem_of_jsGet {α : Type} {key : α → String} {m : List α} {k : String} {v : α}
    (h : jsGet key m k = some v) : v ∈ m := by
  unfold jsGet at h
  exact List.mem_of_find?_eq_some h

theorem any_of_jsGet_some {α : Type} {key : α → String} {m : List α} {k : String} {v : α}
    (h : jsGet key m k = some v) : m.any (fun x => key x == k) = true := by
  refine List.any_eq_true.mpr ⟨v, mem_of_jsGet h, ?_⟩
  unfold jsGet at h
  exact @List.find?_some _ (fun x => key x == k) v m h

theorem find?_map_replace {α : Type} (key : α → String) (v : α) (k : String)
    (hne : k ≠ key v) (xs : List α) :
    List.find? (fun y => key y == k)
        (xs.map fun x => if key x == key v then v else x) =
      List.find? (fun y => key y == k) xs := by
  have hvk : (key v == k) = false := beq_eq_false_iff_ne.mpr fun e => hne e.symm
  induction xs with
  | nil => rfl
  | cons x xs ih =>
    simp only [List.map_cons]
    cases hx : (key x == key v) with
    | true =>
      have hx' : key x = key v := by simpa using hx
      have hxk : (key x == k) = false := by rw [hx']; exact hvk
      simp [hx, List.find?_cons, hvk, hxk, ih, -List.find?_map, -beq_iff_eq]
    | false =>
      cases hxk : (key x == k) with
      | true => simp [hx, List.find?_cons, hxk, -List.find?_map, -beq_iff_eq]
      | false => simp [hx, List.find?_cons, hxk, ih, -List.find?_map, -beq_iff_eq]

theorem jsGet_jsSet_self {α : Type} (key : α → String) (m : List α) (v : α) :
    jsGet key (jsSet key m v) (key v) = some v := by
  unfold jsGet jsSet
  by_cases h : m.any (fun x => key x == key v) = true
  · rw [if_pos h]
    induction m with
    | nil => simp at h
    | cons x xs ih =>
      simp only [List.map_cons]
      cases hx : (key x == key v) with
      | true =>
        simp [hx, List.find?_cons, -List.find?_map, -beq_iff_eq]
      | false =>
        simp only [List.any_cons, hx, Bool.false_or] at h
        simp [hx, List.find?_cons, ih h, -List.find?_map, -beq_iff_eq]
  · rw [if_neg h]
    rw [List.find?_append]
    have hnone : List.find? (fun x => key x == key v) m = none := by
      rw [List.find?_eq_none]
      intro x hx
      simp only [Bool.not_eq_true]
      by_contra hcon
      exact h (List.any_eq_true.mpr ⟨x, hx, by simpa using hcon⟩)
    rw [hnone]
    simp [List.find?_cons]

theorem jsGet_jsSet_ne {α : Type} (key : α → String) (m : List α) (v : α) (k : String)
    (hne : k ≠ key v) : jsGet key (jsSet key m v) k = jsGet key m k := by
  unfold jsGet jsSet
  by_cases h : m.any (fun x => key x == key v) = true
  · rw [if_pos h]
    exact find?_map_replace key v k hne m
  · rw [if_neg h, List.find?_append]
    have hvk : (key v == k) = false := beq_eq_false_iff_ne.mpr fun e => hne e.symm
    simp [List.find?_cons, hvk]

theorem jsSet_length_of_any {α : Type} (key : α → String) (m : List α) (v : α)
    (h : m.any (fun x => key x == key v) = true) :
    (jsSet key m v).length = m.length := by
  unfold jsSet
  rw [if_pos h, List.length_map]

/-! ## A concrete game: two players, shared card, corners win

A realizable trace of the handlers, used by several counterexamples: the host
H creates a room whose generated pool holds one card, B joins, both select the
pool card, the host starts, the caller draws the four corner numbers of the
card, both players mark their corners and claim, and the host accepts the
claim of H. -/

/-- The card generated from the oracle draws `0,1,2,3,4` in every column:
column values `[1..5]`, `[16..20]`, `[31..35]`, `[46..50]`, `[61..65]`. -/
def demoCard : Card :=
  (generateBingoCard [0, 1, 2, 3, 4] [0, 1, 2, 3, 4] [0, 1, 2, 3, 4]
    [0, 1, 2, 3, 4] [0, 1, 2, 3, 4]).getD []

/-- Room G1 right after `create-game` by host H. -/
def demoStart : ServerState := (createGame "H" "Host" "s1" [demoCard] 0 "G1").1

/-- Play up to both players having marked their four corners: the corner
numbers of `demoCard` are 1 (index 0), 61 (index 4), 5 (index 20) and
65 (index 24). -/
def demoMarkedEvents : List GameEvent :=
  [ .join "s2" "B" "Bee" 1,
    .select "H" 0, .select "B" 0,
    .start "H" 2,
    .tick [0], .tick [4], .tick [60], .tick [64],
    .mark "H" 0, .mark "H" 4, .mark "H" 20, .mark "H" 24,
    .mark "B" 0, .mark "B" 4, .mark "B" 20, .mark "B" 24 ]

/-- The active room where both players hold a four-corners pattern but nobody
has claimed yet. -/
def demoMarked : ServerState := runEvents demoStart demoMarkedEvents

/-- The active room holding an outstanding claim by H. -/
def demoClaimed : ServerState := runEvents demoMarked [.claim "H" 3]

/-- The room after B also claims and the host accepts the claim of H:
Finished, winner H, with the stale claim of B still stored. -/
def demoFinished : ServerState :=
  runEvents demoClaimed [.claim "B" 4, .verify "H" "H" true 5]

/-- C1: the claim is right and the code is wrong.  The `verify-bingo` and
`start-game` handlers never check the room status, so on the reachable
Finished room `demoFinished` (winner H, stale claim by B) a second
`verify-bingo` overwrites the winner with B, and a `start-game` returns the
Finished room to Active — both forbidden by the claimed monotonic lifecycle. -/
theorem c1_status_regression_bug :
    (demoFinished.room.map roomStatus) = some .finished ∧
    (demoFinished.room.bind GameRoom.winner) = some "H" ∧
    ((handleEvent demoFinished (.verify "H" "B" true 6)).1.room.bind GameRoom.winner)
      = some "B" ∧
    ((handleEvent demoFinished (.start "H" 7)).1.room.map roomStatus) = some .active := by
  decide

/-! ## Helper constants naming rooms and claims inside the demo states -/

/-- A placeholder room for `Option.getD`; never equal to a demo room. -/
def emptyRoom : GameRoom :=
  { id := "", host := "", players := [], calledNumbers := [], isGameActive := false,
    createdAt := 0, cardPool := [], bingoClaims := [] }

/-- A placeholder player for `Option.getD`; never equal to a demo player. -/
def emptyPlayer : Player :=
  { id := "", name := "", socketId := "", card := none, markedCells := [],
    isHost := false, hasSelectedCard := false, hasClaimedBingo := false, joinedAt := 0 }

/-- The room stored in `demoStart`. -/
def demoStartRoom : GameRoom := demoStart.room.getD emptyRoom

/-- The room stored in `demoMarked`. -/
def demoMarkedRoom : GameRoom := demoMarked.room.getD emptyRoom

/-- Player H inside `demoMarked` (corners marked, no claim yet). -/
def demoMarkedH : Player := (playersGet demoMarkedRoom.players "H").getD emptyPlayer

/-- Player H inside `demoStart` (just joined). -/
def demoStartH : Player := (playersGet demoStartRoom.players "H").getD emptyPlayer

/-- The room stored in `demoClaimed`. -/
def demoClaimedRoom : GameRoom := demoClaimed.room.getD emptyRoom

/-- The room stored in `demoFinished`. -/
def demoFinishedRoom : GameRoom := demoFinished.room.getD emptyRoom

/-- The outstanding claim of H inside `demoClaimed`. -/
def demoClaimH : BingoClaim :=
  (claimsGet demoClaimedRoom.bingoClaims "H").getD
    { playerId := "", playerName := "", timestamp := 0, markedCells := [] }

/-! ## C7: mark/claim on a Finished room -/

/-- The conclusion proved for C7: on a room that is not active, `mark-cell` and
`claim-bingo` change nothing and send nothing (in particular no error). -/
def SilentDropSpec (s : ServerState) (pid : String) (cellIndex now : Nat) : Prop :=
  handleEvent s (.mark pid cellIndex) = (s, []) ∧
  handleEvent s (.claim pid now) = (s, [])

/-- C7 counterexample: on the reachable Finished room `demoFinished`, a
`mark-cell` and a `claim-bingo` produce no outbound event at all — contradicting
the claim that they are rejected with a StateError reported to the requesting
connection (they also change no state, which is the part of the claim that
holds). -/
theorem c7_counterexample_silent_rejection :
    (demoFinished.room.map roomStatus) = some .finished ∧
    handleEvent demoFinished (.mark "H" 1) = (demoFinished, []) ∧
    handleEvent demoFinished (.claim "B" 9) = (demoFinished, []) := by decide

/-- C7 (amended): once a room is no longer active (in particular once it is
Finished), every `mark-cell` and `claim-bingo` request on it performs no state
change and is dropped silently: no event, not even an error, is sent back. -/
theorem c7_finished_mark_claim_ignored (s : ServerState) (r : GameRoom)
    (pid : String) (cellIndex now : Nat)
    (hr : s.room = some r) (hin : r.isGameActive = false) :
    SilentDropSpec s pid cellIndex now := by
  constructor
  · show markCell s pid cellIndex = (s, [])
    unfold markCell
    rw [hr]
    simp [hin]
  · show claimBingo s pid now = (s, [])
    unfold claimBingo
    rw [hr]
    simp [hin]

/-- C7 witness: the amended statement applied to the concrete Finished room. -/
theorem c7_finished_mark_claim_ignored_witness :
    SilentDropSpec demoFinished "C" 3 9 :=
  c7_finished_mark_claim_ignored demoFinished demoFinishedRoom "C" 3 9
    (by decide) (by decide)

/-! ## C3: the verify-bingo protocol -/

/-- Does an outbound event carry a matched-pattern list (the payload shape the
specification describes for the verified event)? -/
def carriesPatterns : OutEvent → Bool
  | .bingoVerifiedWithPatterns _ _ => true
  | _ => false

/-- C3 counterexample: on the concrete Active room with an outstanding claim by
H, an accepting `verify-bingo` emits exactly one room-wide verified event whose
payload is the winner identity plus the claim's marked-cells snapshot; no
emitted event carries a matched-pattern list, contradicting the claim that the
verified event carries every matched pattern. -/
theorem c3_counterexample_no_patterns_payload :
    (demoClaimed.room.map GameRoom.isGameActive) = some true ∧
    (demoClaimed.room.map fun r => claimsGet r.bingoClaims "H") =
      some (some { playerId := "H", playerName := "Host", timestamp := 3,
                   markedCells := [12, 0, 4, 20, 24] }) ∧
    (handleEvent demoClaimed (.verify "H" "H" true 9)).2 =
      [(.toRoom, .bingoVerified (some ("H", "Host", [12, 0, 4, 20, 24])) true)] ∧
    ((handleEvent demoClaimed (.verify "H" "H" true 9)).2.any
        fun e => carriesPatterns e.2) = false := by decide

/-- The conclusion proved for C3 on an Active room `r` with outstanding claim
`cl` for `tgt` and host `req`: accepting finishes the room (winner `tgt`,
interval cancelled) and broadcasts the winner identity with the marked-cells
snapshot; rejecting deletes the claim, clears the claimant's flag, broadcasts
a room-wide rejection and leaves the room Active. -/
def VerifyOutcomeSpec (s : ServerState) (r : GameRoom) (cl : BingoClaim)
    (req tgt : String) (now : Nat) : Prop :=
  (verifyBingo s req tgt true now =
    ({ room := some { r with
          isGameActive := false, winner := some tgt, finishedAt := some now },
        intervalActive := false },
     [(.toRoom, .bingoVerified (some (cl.playerId, cl.playerName, cl.markedCells)) true)])) ∧
  roomStatus { r with
    isGameActive := false, winner := some tgt, finishedAt := some now } = .finished ∧
  ((verifyBingo s req tgt false now).1.room =
    some { r with
      bingoClaims := claimsDelete r.bingoClaims tgt,
      players :=
        match playersGet r.players tgt with
        | some p => playersSet r.players { p with hasClaimedBingo := false }
        | none => r.players }) ∧
  (verifyBingo s req tgt false now).1.intervalActive = s.intervalActive ∧
  (verifyBingo s req tgt false now).2 = [(.toRoom, .bingoVerified none false)] ∧
  ((verifyBingo s req tgt false now).1.room.map GameRoom.isGameActive) = some true ∧
  claimsGet (claimsDelete r.bingoClaims tgt) tgt = none ∧
  (∀ p, playersGet r.players tgt = some p →
    playersGet (playersSet r.players { p with hasClaimedBingo := false }) tgt =
      some { p with hasClaimedBingo := false })

/-- C3 (amended): for an Active room with an outstanding claim for `tgt` and a
verify request by the host, accepting sets winner `tgt`, finishes the room,
cancels the interval and broadcasts a verified event carrying the winner
identity and the claim's marked-cells snapshot (the code computes no
matched-pattern list); rejecting deletes the claim record, clears the
player's `hasClaimedBingo` flag, broadcasts a room-wide rejection event and
leaves the room Active. -/
theorem c3_verify_bingo_outcome (s : ServerState) (r : GameRoom) (cl : BingoClaim)
    (req tgt : String) (now : Nat)
    (hr : s.room = some r) (hactive : r.isGameActive = true)
    (hhost : r.host = req) (hcl : claimsGet r.bingoClaims tgt = some cl) :
    VerifyOutcomeSpec s r cl req tgt now := by
  have hhostb : (r.host == req) = true := by simp [hhost]
  have hcleared : claimsGet (claimsDelete r.bingoClaims tgt) tgt = none := by
    unfold claimsGet claimsDelete jsGet jsDelete
    rw [List.find?_eq_none]
    intro c hc
    have := (List.mem_filter.mp hc).2
    simpa using this
  unfold VerifyOutcomeSpec
  refine ⟨?_, by simp [roomStatus], ?_, ?_, ?_, ?_, hcleared, ?_⟩
  · unfold verifyBingo
    rw [hr]
    simp [hhostb, hcl]
  · unfold verifyBingo
    rw [hr]
    simp [hhostb, hcl]
  · unfold verifyBingo
    rw [hr]
    simp [hhostb, hcl]
  · unfold verifyBingo
    rw [hr]
    simp [hhostb, hcl]
  · unfold verifyBingo
    rw [hr]
    simp [hhostb, hcl, hactive]
  · intro p hp
    have hid : p.id = tgt := key_of_jsGet hp
    have := jsGet_jsSet_self Player.id r.players { p with hasClaimedBingo := false }
    unfold playersGet playersSet
    simpa [hid] using this

/-- C3 witness: the amended statement applied to the concrete Active claimed
room, hypotheses discharged by evaluation. -/
theorem c3_verify_bingo_outcome_witness :
    VerifyOutcomeSpec demoClaimed demoClaimedRoom demoClaimH "H" "H" 11 :=
  c3_verify_bingo_outcome demoClaimed demoClaimedRoom demoClaimH "H" "H" 11
    (by decide) (by decide) (by decide) (by decide)

/-! ## C4: claim-bingo validation -/

/-- The conclusion proved for C4 on an Active room `r` with player `p` (no
prior claim): a claim with no winning pattern is rejected with the validation
error and changes nothing; a claim with a winning pattern stores exactly one
claim record under the player's id, flags the player, and broadcasts a
room-wide claim notice while the winner stays unchanged. -/
def ClaimOutcomeSpec (s : ServerState) (r : GameRoom) (p : Player)
    (pid : String) (now : Nat) : Prop :=
  (checkWinCondition p.markedCells = false →
    claimBingo s pid now = (s, [(.toSelf, .errorMsg "No valid winning pattern found!")])) ∧
  (checkWinCondition p.markedCells = true →
    (claimBingo s pid now).1.room =
      some { r with
        players := playersSet r.players { p with hasClaimedBingo := true },
        bingoClaims := claimsSet r.bingoClaims
          { playerId := p.id, playerName := p.name, timestamp := now,
            markedCells := p.markedCells } } ∧
    (claimBingo s pid now).1.intervalActive = s.intervalActive ∧
    (claimBingo s pid now).2 =
      [(.toRoom, .bingoClaimed p.id p.name now p.markedCells)] ∧
    claimsGet (claimsSet r.bingoClaims
        { playerId := p.id, playerName := p.name, timestamp := now,
          markedCells := p.markedCells }) pid =
      some { playerId := p.id, playerName := p.name, timestamp := now,
             markedCells := p.markedCells } ∧
    (∀ q, q ≠ pid →
      claimsGet (claimsSet r.bingoClaims
          { playerId := p.id, playerName := p.name, timestamp := now,
            markedCells := p.markedCells }) q = claimsGet r.bingoClaims q) ∧
    ((claimBingo s pid now).1.room.bind GameRoom.winner) = r.winner)

/-- C4: in an Active room, a `claim-bingo` whose `checkWinCondition` fails is
rejected with the validation error and leaves every part of the state
unchanged; when it passes and the player has not claimed before, exactly one
claim record keyed by the player id is stored, `hasClaimedBingo` is set, and a
room-wide claim notice is broadcast without declaring a winner. -/
theorem c4_claim_bingo_validation (s : ServerState) (r : GameRoom) (p : Player)
    (pid : String) (now : Nat)
    (hr : s.room = some r) (hactive : r.isGameActive = true)
    (hp : playersGet r.players pid = some p) (hflag : p.hasClaimedBingo = false) :
    ClaimOutcomeSpec s r p pid now := by
  have hpid : p.id = pid := key_of_jsGet hp
  unfold ClaimOutcomeSpec
  constructor
  · intro hw
    unfold claimBingo
    rw [hr]
    simp only [hactive]
    simp [hp, hflag, hw]
  · intro hw
    refine ⟨?_, ?_, ?_, ?_, ?_, ?_⟩
    · unfold claimBingo
      rw [hr]
      simp only [hactive]
      simp [hp, hflag, hw]
    · unfold claimBingo
      rw [hr]
      simp only [hactive]
      simp [hp, hflag, hw]
    · unfold claimBingo
      rw [hr]
      simp only [hactive]
      simp [hp, hflag, hw]
    · have := jsGet_jsSet_self BingoClaim.playerId r.bingoClaims
        { playerId := p.id, playerName := p.name, timestamp := now,
          markedCells := p.markedCells }
      unfold claimsGet claimsSet
      simpa [hpid] using this
    · intro q hq
      have := jsGet_jsSet_ne BingoClaim.playerId r.bingoClaims
        { playerId := p.id, playerName := p.name, timestamp := now,
          markedCells := p.markedCells } q (by simpa [hpid] using hq)
      unfold claimsGet claimsSet
      simpa using this
    · unfold claimBingo
      rw [hr]
      simp only [hactive]
      simp [hp, hflag, hw]

/-- C4 witness: the statement applied at the marked-corners room, with H (a
winning pattern, no prior claim). -/
theorem c4_claim_bingo_validation_witness :
    ClaimOutcomeSpec demoMarked demoMarkedRoom demoMarkedH "H" 3 :=
  c4_claim_bingo_validation demoMarked demoMarkedRoom demoMarkedH "H" 3
    (by decide) (by decide) (by decide) (by decide)

/-! ## C5 and C10: joining a room -/

/-- Is an outbound event the scoped error event? -/
def isErrorEv : OutEvent → Bool
  | .errorMsg _ => true
  | _ => false

/-- The player object `joinGame` constructs (`server.js` lines 261-271). -/
def freshPlayer (sock pid name host : String) (now : Nat) : Player :=
  { id := pid, name := name, socketId := sock, card := none, markedCells := [12],
    isHost := pid == host, hasSelectedCard := false, hasClaimedBingo := false,
    joinedAt := now }

/-- C5 counterexample: the reachable Finished room `demoFinished` has two
players, yet a join request succeeds — the player count grows and no error is
sent — contradicting the claim that a join is rejected with a state error
whenever the status is not Waiting, including Finished rooms. -/
theorem c5_counterexample_join_finished_room :
    (demoFinished.room.map roomStatus) = some .finished ∧
    (demoFinished.room.map fun r => r.players.length) = some 2 ∧
    ((handleEvent demoFinished (.join "s3" "C" "Cee" 12)).1.room.map
      fun r => r.players.length) = some 3 ∧
    ((handleEvent demoFinished (.join "s3" "C" "Cee" 12)).2.any
      fun e => isErrorEv e.2) = false := by decide

/-- The conclusion proved for C5: capacity error at 8 or more players (checked
first), state error only when the game is currently active, and otherwise —
including on Finished rooms — the join succeeds and stores a fresh player with
`markedCells = {12}`. -/
def JoinOutcomeSpec (s : ServerState) (r : GameRoom) (sock pid name : String)
    (now : Nat) : Prop :=
  (r.players.length ≥ 8 →
    joinGame s sock pid name now =
      (s, [(.toSelf, .errorMsg "Game is full! Maximum 8 players allowed.")])) ∧
  (r.players.length < 8 → r.isGameActive = true →
    joinGame s sock pid name now =
      (s, [(.toSelf, .errorMsg "Game has already started!")])) ∧
  (r.players.length < 8 → r.isGameActive = false →
    (joinGame s sock pid name now).1.room =
      some { r with players := playersSet r.players (freshPlayer sock pid name r.host now) } ∧
    (joinGame s sock pid name now).1.intervalActive = s.intervalActive ∧
    ((joinGame s sock pid name now).2.any fun e => isErrorEv e.2) = false ∧
    playersGet (playersSet r.players (freshPlayer sock pid name r.host now)) pid =
      some (freshPlayer sock pid name r.host now))

/-- Shared analysis of `joinGame` on an existing room: capacity check, then
the active-game check, then insertion of the fresh player. -/
theorem joinGame_guards_outcome (s : ServerState) (r : GameRoom) (sock pid name : String)
    (now : Nat) (hr : s.room = some r) :
    JoinOutcomeSpec s r sock pid name now := by
  unfold JoinOutcomeSpec
  refine ⟨?_, ?_, ?_⟩
  · intro h8
    unfold joinGame
    rw [hr]
    simp [h8]
  · intro h8 hact
    unfold joinGame
    rw [hr]
    simp [Nat.not_le.mpr h8, hact]
  · intro h8 hin
    refine ⟨?_, ?_, ?_, ?_⟩
    · unfold joinGame
      rw [hr]
      simp [Nat.not_le.mpr h8, hin, freshPlayer, playersSet]
    · unfold joinGame
      rw [hr]
      simp [Nat.not_le.mpr h8, hin]
    · unfold joinGame
      rw [hr]
      simp [Nat.not_le.mpr h8, hin, isErrorEv]
    · have := jsGet_jsSet_self Player.id r.players (freshPlayer sock pid name r.host now)
      unfold playersGet playersSet
      simpa [freshPlayer] using this

/-- C5 (amended): a join on an existing room is rejected with the capacity
error when the room already has 8 or more players (this check runs first); it
is rejected with the started-game state error only when the room is currently
Active; a Finished room has `isGameActive = false` again and therefore accepts
joins exactly like a Waiting room; an accepted join stores a player whose
`markedCells` is exactly `{12}`; a rejected join changes no room state. -/
theorem c5_join_guards (s : ServerState) (r : GameRoom) (sock pid name : String)
    (now : Nat) (hr : s.room = some r) :
    JoinOutcomeSpec s r sock pid name now :=
  joinGame_guards_outcome s r sock pid name now hr

/-- C5 witness: the amended statement applied at the Finished demo room (its
third clause is the one exercised: the join succeeds). -/
theorem c5_join_guards_witness :
    JoinOutcomeSpec demoFinished demoFinishedRoom "s3" "D" "Dee" 13 :=
  c5_join_guards demoFinished demoFinishedRoom "s3" "D" "Dee" 13 (by decide)

/-- The conclusion proved for C10: a rejoin of an existing player id in a
Waiting, non-full room is accepted, replaces the stored entry under the same
key with a reset player (`markedCells = {12}`, no card, no flags), and keeps
the player count unchanged. -/
def RejoinSpec (s : ServerState) (r : GameRoom) (sock pid name : String)
    (now : Nat) : Prop :=
  (joinGame s sock pid name now).1.room =
    some { r with players := playersSet r.players (freshPlayer sock pid name r.host now) } ∧
  (playersSet r.players (freshPlayer sock pid name r.host now)).length =
    r.players.length ∧
  playersGet (playersSet r.players (freshPlayer sock pid name r.host now)) pid =
    some (freshPlayer sock pid name r.host now) ∧
  ((joinGame s sock pid name now).2.any fun e => isErrorEv e.2) = false

/-- C10: in a Waiting room with fewer than 8 players, a join request whose
player id already belongs to a player is not rejected: it replaces the stored
entry under the same key (card cleared, `markedCells = {12}`, selection and
claim flags reset) and the player count stays the same. -/
theorem c10_rejoin_replaces_player (s : ServerState) (r : GameRoom) (p : Player)
    (sock pid name : String) (now : Nat)
    (hr : s.room = some r) (hwait : roomStatus r = .waiting)
    (h8 : r.players.length < 8) (hp : playersGet r.players pid = some p) :
    RejoinSpec s r sock pid name now := by
  have hin : r.isGameActive = false := by
    cases h : r.isGameActive
    · rfl
    · exfalso
      unfold roomStatus at hwait
      rw [h] at hwait
      simp at hwait
  have hout := joinGame_guards_outcome s r sock pid name now hr
  unfold JoinOutcomeSpec at hout
  obtain ⟨-, -, hjoin⟩ := hout
  obtain ⟨h1, -, h4, h5⟩ := hjoin h8 hin
  refine ⟨h1, ?_, h5, h4⟩
  have hany : (r.players.any
      fun x => Player.id x == Player.id (freshPlayer sock pid name r.host now)) = true := by
    have := @any_of_jsGet_some _ Player.id _ _ _ hp
    simpa [freshPlayer] using this
  have := jsSet_length_of_any Player.id r.players (freshPlayer sock pid name r.host now) hany
  unfold playersSet
  simpa using this

/-- C10 witness: host H rejoining the one-player Waiting room right after
creation. -/
theorem c10_rejoin_replaces_player_witness :
    RejoinSpec demoStart demoStartRoom "s7" "H" "Harriet" 14 :=
  c10_rejoin_replaces_player demoStart demoStartRoom demoStartH "s7" "H" "Harriet" 14
    (by decide) (by decide) (by decide) (by decide)

/-! ## C8: structure of generated cards -/

theorem fillColumnNumbers_spec (lo hi : Nat) (hlh : lo ≤ hi) :
    ∀ (draws acc r : List Nat), fillColumnNumbers lo hi draws acc = some r →
      acc.Nodup → (∀ x ∈ acc, lo ≤ x ∧ x ≤ hi) → acc.length ≤ 5 →
      r.Nodup ∧ (∀ x ∈ r, lo ≤ x ∧ x ≤ hi) ∧ r.length = 5 := by
  intro draws
  induction draws with
  | nil =>
    intro acc r h hnd hrange hlen
    unfold fillColumnNumbers at h
    by_cases h5 : acc.length ≥ 5
    · rw [if_pos h5] at h
      obtain rfl : acc = r := by simpa using h
      exact ⟨hnd, hrange, le_antisymm hlen h5⟩
    · rw [if_neg h5] at h
      simp at h
  | cons d rest ih =>
    intro acc r h hnd hrange hlen
    unfold fillColumnNumbers at h
    by_cases h5 : acc.length ≥ 5
    · rw [if_pos h5] at h
      obtain rfl : acc = r := by simpa using h
      exact ⟨hnd, hrange, le_antisymm hlen h5⟩
    · rw [if_neg h5] at h
      have hnumrange : lo ≤ lo + d % (hi - lo + 1) ∧ lo + d % (hi - lo + 1) ≤ hi := by
        constructor
        · exact Nat.le_add_right lo _
        · have : d % (hi - lo + 1) ≤ hi - lo := Nat.lt_succ_iff.mp (Nat.mod_lt _ (Nat.succ_pos _))
          omega
      by_cases hc : acc.contains (lo + d % (hi - lo + 1)) = true
      · simp only [hc, if_true] at h
        exact ih acc r h hnd hrange hlen
      · simp only [hc, if_false] at h
        refine ih (acc ++ [lo + d % (hi - lo + 1)]) r h ?_ ?_ ?_
        · have hnotmem : lo + d % (hi - lo + 1) ∉ acc := by simpa using hc
          simp [List.nodup_append, hnd, hnotmem]
        · intro x hx
          rcases List.mem_append.mp hx with hx | hx
          · exact hrange x hx
          · obtain rfl : x = lo + d % (hi - lo + 1) := by simpa using hx
            exact hnumrange
        · have : acc.length < 5 := Nat.not_le.mp h5
          simp only [List.length_append, List.length_cons, List.length_nil]
          omega

theorem generateColumnNumbers_spec (lo hi : Nat) (hlh : lo ≤ hi)
    (draws ns : List Nat) (h : generateColumnNumbers lo hi draws = some ns) :
    ns.Nodup ∧ (∀ x ∈ ns, lo ≤ x ∧ x ≤ hi) ∧ ns.length = 5 := by
  unfold generateColumnNumbers at h
  cases hfill : fillColumnNumbers lo hi draws [] with
  | none => rw [hfill] at h; exact absurd h (by simp)
  | some raw =>
    rw [hfill] at h
    obtain rfl : raw.insertionSort (· ≤ ·) = ns := by simpa using h
    obtain ⟨hnd, hrange, hlen⟩ :=
      fillColumnNumbers_spec lo hi hlh draws [] raw hfill (by simp) (by simp) (by simp)
    have hperm : List.Perm (raw.insertionSort (· ≤ ·)) raw := List.perm_insertionSort _ raw
    refine ⟨hperm.nodup_iff.mpr hnd, ?_, ?_⟩
    · intro x hx
      exact hrange x (hperm.mem_iff.mp hx)
    · rw [hperm.length_eq, hlen]

/-- The `(index, row, col, isFree)` quadruple of every cell in the push order
of `generateBingoCard` (column-major push, row-major `index` fields). -/
def cardLayout : List (Nat × Nat × Nat × Bool) :=
  [ (0, 0, 0, false), (5, 1, 0, false), (10, 2, 0, false), (15, 3, 0, false), (20, 4, 0, false),
    (1, 0, 1, false), (6, 1, 1, false), (11, 2, 1, false), (16, 3, 1, false), (21, 4, 1, false),
    (2, 0, 2, false), (7, 1, 2, false), (12, 2, 2, true), (17, 3, 2, false), (22, 4, 2, false),
    (3, 0, 3, false), (8, 1, 3, false), (13, 2, 3, false), (18, 3, 3, false), (23, 4, 3, false),
    (4, 0, 4, false), (9, 1, 4, false), (14, 2, 4, false), (19, 3, 4, false), (24, 4, 4, false) ]

/-- The numeric (non-free) values of column `c` on a card. -/
def colValues (card : Card) (c : Nat) : List Nat :=
  (card.filter fun cell => cell.col == c && !cell.isFree).filterMap fun cell => cell.number

/-- The property claimed for every generated card: 25 cells whose `index`
fields are the row-major indices 0-24, FREE exactly at index 12, and each
column's numeric values (four in the center column, five elsewhere) lying in
that column's range and pairwise distinct. -/
def CardSpec (card : Card) : Prop :=
  card.length = 25 ∧
  (∀ i < 25, ∃ cell ∈ card, cell.index = i ∧ cell.row = i / 5 ∧ cell.col = i % 5) ∧
  (∀ cell ∈ card, (cell.isFree = true ↔ cell.index = 12)) ∧
  (∀ c < 5, (∀ v ∈ colValues card c, (colRange c).1 ≤ v ∧ v ≤ (colRange c).2) ∧
    (colValues card c).Nodup ∧ (colValues card c).length = if c = 2 then 4 else 5)

theorem length_five_shape (ns : List Nat) (h : ns.length = 5) :
    ∃ a b c d e, ns = [a, b, c, d, e] := by
  match ns, h with
  | [a, b, c, d, e], _ => exact ⟨a, b, c, d, e, rfl⟩

/-- C8: every card returned by `generateBingoCard` has 25 cells indexed 0-24
row-major, is FREE exactly at index 12, and each column's values lie in the
column's fixed range and are pairwise distinct (four values in the center
column, five in the others). -/
theorem c8_generateBingoCard_spec (d0 d1 d2 d3 d4 : List Nat) (card : Card)
    (h : generateBingoCard d0 d1 d2 d3 d4 = some card) : CardSpec card := by
  unfold generateBingoCard at h
  cases h0 : generateColumnNumbers (colRange 0).1 (colRange 0).2 d0 with
  | none => rw [h0] at h; exact absurd h (by simp)
  | some n0 =>
  cases h1 : generateColumnNumbers (colRange 1).1 (colRange 1).2 d1 with
  | none => rw [h0, h1] at h; exact absurd h (by simp)
  | some n1 =>
  cases h2 : generateColumnNumbers (colRange 2).1 (colRange 2).2 d2 with
  | none => rw [h0, h1, h2] at h; exact absurd h (by simp)
  | some n2 =>
  cases h3 : generateColumnNumbers (colRange 3).1 (colRange 3).2 d3 with
  | none => rw [h0, h1, h2, h3] at h; exact absurd h (by simp)
  | some n3 =>
  cases h4 : generateColumnNumbers (colRange 4).1 (colRange 4).2 d4 with
  | none => rw [h0, h1, h2, h3, h4] at h; exact absurd h (by simp)
  | some n4 =>
  rw [h0, h1, h2, h3, h4] at h
  obtain rfl : mkColumn 0 n0 ++ mkColumn 1 n1 ++ mkColumn 2 n2 ++ mkColumn 3 n3 ++
      mkColumn 4 n4 = card := by simpa using h
  obtain ⟨hnd0, hr0, hl0⟩ := generateColumnNumbers_spec _ _ (by decide) _ _ h0
  obtain ⟨hnd1, hr1, hl1⟩ := generateColumnNumbers_spec _ _ (by decide) _ _ h1
  obtain ⟨hnd2, hr2, hl2⟩ := generateColumnNumbers_spec _ _ (by decide) _ _ h2
  obtain ⟨hnd3, hr3, hl3⟩ := generateColumnNumbers_spec _ _ (by decide) _ _ h3
  obtain ⟨hnd4, hr4, hl4⟩ := generateColumnNumbers_spec _ _ (by decide) _ _ h4
  obtain ⟨a0, b0, c0, x0, e0, rfl⟩ := length_five_shape n0 hl0
  obtain ⟨a1, b1, c1, x1, e1, rfl⟩ := length_five_shape n1 hl1
  obtain ⟨a2, b2, c2, x2, e2, rfl⟩ := length_five_shape n2 hl2
  obtain ⟨a3, b3, c3, x3, e3, rfl⟩ := length_five_shape n3 hl3
  obtain ⟨a4, b4, c4, x4, e4, rfl⟩ := length_five_shape n4 hl4
  have hmap : (mkColumn 0 [a0, b0, c0, x0, e0] ++ mkColumn 1 [a1, b1, c1, x1, e1] ++
      mkColumn 2 [a2, b2, c2, x2, e2] ++ mkColumn 3 [a3, b3, c3, x3, e3] ++
      mkColumn 4 [a4, b4, c4, x4, e4]).map
        (fun cell => (cell.index, cell.row, cell.col, cell.isFree)) = cardLayout := rfl
  refine ⟨rfl, ?_, ?_, ?_⟩
  · intro i hi
    have hl : ((i : Nat), i / 5, i % 5, decide (i = 12)) ∈ cardLayout := by
      interval_cases i <;> decide
    rw [← hmap] at hl
    obtain ⟨cell, hcell, heq⟩ := List.mem_map.mp hl
    refine ⟨cell, hcell, ?_, ?_, ?_⟩
    · exact congrArg (fun t => t.1) heq
    · exact congrArg (fun t => t.2.1) heq
    · exact congrArg (fun t => t.2.2.1) heq
  · intro cell hcell
    have hl : (cell.index, cell.row, cell.col, cell.isFree) ∈ cardLayout := by
      rw [← hmap]
      exact List.mem_map_of_mem _ hcell
    have hall : ∀ t ∈ cardLayout, ((t.2.2.2 : Bool) = true ↔ t.1 = 12) := by decide
    exact hall _ hl
  · intro c hc
    interval_cases c
    · have : colValues (mkColumn 0 [a0, b0, c0, x0, e0] ++ mkColumn 1 [a1, b1, c1, x1, e1] ++
          mkColumn 2 [a2, b2, c2, x2, e2] ++ mkColumn 3 [a3, b3, c3, x3, e3] ++
          mkColumn 4 [a4, b4, c4, x4, e4]) 0 = [a0, b0, c0, x0, e0] := rfl
      rw [this]
      simp only [colRange]
      refine ⟨?_, ?_, by simp⟩
      · intro v hv
        exact hr0 v (by simpa using hv)
      · simpa using hnd0
    · have : colValues (mkColumn 0 [a0, b0, c0, x0, e0] ++ mkColumn 1 [a1, b1, c1, x1, e1] ++
          mkColumn 2 [a2, b2, c2, x2, e2] ++ mkColumn 3 [a3, b3, c3, x3, e3] ++
          mkColumn 4 [a4, b4, c4, x4, e4]) 1 = [a1, b1, c1, x1, e1] := rfl
      rw [this]
      simp only [colRange]
      refine ⟨?_, ?_, by simp⟩
      · intro v hv
        exact hr1 v (by simpa using hv)
      · simpa using hnd1
    · have : colValues (mkColumn 0 [a0, b0, c0, x0, e0] ++ mkColumn 1 [a1, b1, c1, x1, e1] ++
          mkColumn 2 [a2, b2, c2, x2, e2] ++ mkColumn 3 [a3, b3, c3, x3, e3] ++
          mkColumn 4 [a4, b4, c4, x4, e4]) 2 = [a2, b2, x2, e2] := rfl
      rw [this]
      simp only [colRange]
      refine ⟨?_, ?_, by simp⟩
      · intro v hv
        refine hr2 v ?_
        simp only [List.mem_cons, List.not_mem_nil, or_false] at hv ⊢
        tauto
      · have : List.Sublist [a2, b2, x2, e2] [a2, b2, c2, x2, e2] := by
          refine List.Sublist.cons₂ _ (List.Sublist.cons₂ _ (List.Sublist.cons _ ?_))
          exact List.Sublist.refl _
        exact this.nodup hnd2
    · have : colValues (mkColumn 0 [a0, b0, c0, x0, e0] ++ mkColumn 1 [a1, b1, c1, x1, e1] ++
          mkColumn 2 [a2, b2, c2, x2, e2] ++ mkColumn 3 [a3, b3, c3, x3, e3] ++
          mkColumn 4 [a4, b4, c4, x4, e4]) 3 = [a3, b3, c3, x3, e3] := rfl
      rw [this]
      simp only [colRange]
      refine ⟨?_, ?_, by simp⟩
      · intro v hv
        exact hr3 v (by simpa using hv)
      · simpa using hnd3
    · have : colValues (mkColumn 0 [a0, b0, c0, x0, e0] ++ mkColumn 1 [a1, b1, c1, x1, e1] ++
          mkColumn 2 [a2, b2, c2, x2, e2] ++ mkColumn 3 [a3, b3, c3, x3, e3] ++
          mkColumn 4 [a4, b4, c4, x4, e4]) 4 = [a4, b4, c4, x4, e4] := rfl
      rw [this]
      simp only [colRange]
      refine ⟨?_, ?_, by simp⟩
      · intro v hv
        exact hr4 v (by simpa using hv)
      · simpa using hnd4

/-- C8 witness: the generator succeeds on the all-`[0,1,2,3,4]` oracle and the
resulting card (the demo card) satisfies the full card property. -/
theorem c8_generateBingoCard_spec_witness :
    generateBingoCard [0, 1, 2, 3, 4] [0, 1, 2, 3, 4] [0, 1, 2, 3, 4] [0, 1, 2, 3, 4]
      [0, 1, 2, 3, 4] = some demoCard ∧ CardSpec demoCard :=
  ⟨by decide,
    c8_generateBingoCard_spec [0, 1, 2, 3, 4] [0, 1, 2, 3, 4] [0, 1, 2, 3, 4] [0, 1, 2, 3, 4]
      [0, 1, 2, 3, 4] demoCard (by decide)⟩

/-! ## C6: the calledNumbers lifecycle -/

theorem joinGame_called (s : ServerState) (sock pid name : String) (now : Nat)
    (r r' : GameRoom) (hr : s.room = some r)
    (hr' : (joinGame s sock pid name now).1.room = some r') :
    r'.calledNumbers = r.calledNumbers := by
  obtain ⟨room, iact⟩ := s
  simp only at hr
  subst hr
  simp only [joinGame] at hr'
  repeat' split at hr'
  all_goals (try simp_all)
  all_goals (rw [← hr'])

theorem selectCard_called (s : ServerState) (pid : String) (cardId : Nat)
    (r r' : GameRoom) (hr : s.room = some r)
    (hr' : (selectCard s pid cardId).1.room = some r') :
    r'.calledNumbers = r.calledNumbers := by
  obtain ⟨room, iact⟩ := s
  simp only at hr
  subst hr
  simp only [selectCard] at hr'
  repeat' split at hr'
  all_goals (try simp_all)
  all_goals (rw [← hr'])

theorem startGame_called (s : ServerState) (pid : String) (now : Nat)
    (r r' : GameRoom) (hr : s.room = some r)
    (hr' : (startGame s pid now).1.room = some r') :
    r'.calledNumbers = r.calledNumbers := by
  obtain ⟨room, iact⟩ := s
  simp only at hr
  subst hr
  simp only [startGame] at hr'
  repeat' split at hr'
  all_goals (try simp_all)
  all_goals (rw [← hr'])

theorem markCell_called (s : ServerState) (pid : String) (cellIndex : Nat)
    (r r' : GameRoom) (hr : s.room = some r)
    (hr' : (markCell s pid cellIndex).1.room = some r') :
    r'.calledNumbers = r.calledNumbers := by
  obtain ⟨room, iact⟩ := s
  simp only at hr
  subst hr
  simp only [markCell] at hr'
  repeat' split at hr'
  all_goals (try simp_all)
  all_goals (rw [← hr'])

theorem claimBingo_called (s : ServerState) (pid : String) (now : Nat)
    (r r' : GameRoom) (hr : s.room = some r)
    (hr' : (claimBingo s pid now).1.room = some r') :
    r'.calledNumbers = r.calledNumbers := by
  obtain ⟨room, iact⟩ := s
  simp only at hr
  subst hr
  simp only [claimBingo] at hr'
  repeat' split at hr'
  all_goals (try simp_all)
  all_goals (rw [← hr'])

theorem verifyBingo_called (s : ServerState) (req tgt : String) (isValid : Bool)
    (now : Nat) (r r' : GameRoom) (hr : s.room = some r)
    (hr' : (verifyBingo s req tgt isValid now).1.room = some r') :
    r'.calledNumbers = r.calledNumbers := by
  obtain ⟨room, iact⟩ := s
  simp only at hr
  subst hr
  simp only [verifyBingo] at hr'
  repeat' split at hr'
  all_goals (try simp_all)
  all_goals (rw [← hr'])

theorem leaveGame_called (s : ServerState) (pid : String)
    (r r' : GameRoom) (hr : s.room = some r)
    (hr' : (leaveGame s pid).1.room = some r') :
    r'.calledNumbers = r.calledNumbers := by
  obtain ⟨room, iact⟩ := s
  simp only at hr
  subst hr
  simp only [leaveGame] at hr'
  repeat' split at hr'
  all_goals (try simp_all)
  all_goals (rw [← hr'])

theorem drawFresh_spec (called draws : List Nat) (n : Nat)
    (h : drawFresh called draws = some n) :
    n ∉ called ∧ 1 ≤ n ∧ n ≤ 75 := by
  unfold drawFresh at h
  have hp := List.find?_some h
  have hm := List.mem_of_find?_eq_some h
  constructor
  · simpa using hp
  · obtain ⟨d, hd, rfl⟩ := List.mem_map.mp hm
    have : d % 75 < 75 := Nat.mod_lt _ (by omega)
    omega

theorem numberTick_called (s : ServerState) (draws : List Nat)
    (r r' : GameRoom) (hr : s.room = some r)
    (hr' : (numberTick s draws).1.room = some r') :
    r'.calledNumbers = r.calledNumbers ∨
    ∃ n, n ∉ r.calledNumbers ∧ 1 ≤ n ∧ n ≤ 75 ∧ r.calledNumbers.length < 75 ∧
      r'.calledNumbers = r.calledNumbers ++ [n] := by
  obtain ⟨room, iact⟩ := s
  simp only at hr
  subst hr
  simp only [numberTick, callNextNumber] at hr'
  repeat' split at hr'
  all_goals (try (left; simp_all; done))
  all_goals try (simp only [Option.some.injEq] at hr')
  case _ hiact hguard hnn x number heq =>
    right
    obtain ⟨hnot, h1, h75⟩ := drawFresh_spec _ _ _ heq
    exact ⟨number, hnot, h1, h75, hguard.2, by rw [← hr']⟩


theorem handleEvent_calledStep (s : ServerState) (e : GameEvent)
    (r r' : GameRoom) (hr : s.room = some r)
    (hr' : (handleEvent s e).1.room = some r') :
    r'.calledNumbers = r.calledNumbers ∨
    ∃ n, n ∉ r.calledNumbers ∧ 1 ≤ n ∧ n ≤ 75 ∧ r.calledNumbers.length < 75 ∧
      r'.calledNumbers = r.calledNumbers ++ [n] := by
  cases e with
  | join sock pid name now => exact Or.inl (joinGame_called s sock pid name now r r' hr hr')
  | select pid cardId => exact Or.inl (selectCard_called s pid cardId r r' hr hr')
  | start pid now => exact Or.inl (startGame_called s pid now r r' hr hr')
  | mark pid cellIndex => exact Or.inl (markCell_called s pid cellIndex r r' hr hr')
  | claim pid now => exact Or.inl (claimBingo_called s pid now r r' hr hr')
  | verify req tgt isValid now =>
      exact Or.inl (verifyBingo_called s req tgt isValid now r r' hr hr')
  | leave pid => exact Or.inl (leaveGame_called s pid r r' hr hr')
  | tick draws => exact numberTick_called s draws r r' hr hr'

theorem handleEvent_room_none (s : ServerState) (e : GameEvent) (h : s.room = none) :
    (handleEvent s e).1.room = none := by
  obtain ⟨room, iact⟩ := s
  simp only at h
  subst h
  cases e <;>
    simp only [handleEvent, joinGame, selectCard, startGame, markCell, claimBingo,
      verifyBingo, leaveGame, numberTick, callNextNumber] <;>
    split_ifs <;> rfl

theorem createGame_called_nil (hostId hostName sock : String) (pool : List Card)
    (now : Nat) (gid : String) (r : GameRoom)
    (hr : (createGame hostId hostName sock pool now gid).1.room = some r) :
    r.calledNumbers = [] := by
  simp only [createGame, joinGame] at hr
  split_ifs at hr <;> simp_all
  rw [← hr]

theorem exists_drawFresh_range (called : List Nat) (hnd : called.Nodup)
    (hrange : ∀ n ∈ called, 1 ≤ n ∧ n ≤ 75) (hlen : called.length < 75) :
    ∃ n, drawFresh called (List.range 75) = some n := by
  have hex : ∃ m, 1 ≤ m ∧ m ≤ 75 ∧ m ∉ called := by
    by_contra hcon
    push_neg at hcon
    have hsub : Finset.Icc 1 75 ⊆ called.toFinset := by
      intro m hm
      simp only [Finset.mem_Icc] at hm
      exact List.mem_toFinset.mpr (hcon m hm.1 hm.2)
    have hcard : (Finset.Icc 1 75).card ≤ called.toFinset.card := Finset.card_le_card hsub
    rw [Nat.card_Icc] at hcard
    have : called.toFinset.card = called.length := List.toFinset_card_of_nodup hnd
    omega
  obtain ⟨m, h1, h75, hnotin⟩ := hex
  have hsome : ((List.range 75).map (fun d => d % 75 + 1)).find?
      (fun n => ¬ called.contains n) |>.isSome := by
    rw [List.find?_isSome]
    refine ⟨m, ?_, by simpa using hnotin⟩
    refine List.mem_map.mpr ⟨m - 1, List.mem_range.mpr (by omega), ?_⟩
    have : m - 1 < 75 := by omega
    rw [Nat.mod_eq_of_lt this]
    omega
  obtain ⟨n, hn⟩ := Option.isSome_iff_exists.mp hsome
  exact ⟨n, hn⟩

theorem numberTick_stops (s : ServerState) (draws : List Nat) (r : GameRoom)
    (hr : s.room = some r)
    (hguard : ¬(r.isGameActive = true ∧ r.calledNumbers.length < 75)) :
    (numberTick s draws).1.room = s.room ∧ (numberTick s draws).1.intervalActive = false ∧
    (numberTick s draws).2 = [] := by
  obtain ⟨room, iact⟩ := s
  simp only at hr
  subst hr
  cases iact with
  | false => simp [numberTick]
  | true => simp [numberTick, hguard]

theorem numberTick_appends (s : ServerState) (r : GameRoom)
    (hr : s.room = some r) (hiact : s.intervalActive = true)
    (hact : r.isGameActive = true) (hlen : r.calledNumbers.length < 75)
    (hnd : r.calledNumbers.Nodup) (hrange : ∀ n ∈ r.calledNumbers, 1 ≤ n ∧ n ≤ 75) :
    ∃ n r', n ∉ r.calledNumbers ∧ 1 ≤ n ∧ n ≤ 75 ∧
      (numberTick s (List.range 75)).1.room = some r' ∧
      r'.calledNumbers = r.calledNumbers ++ [n] := by
  obtain ⟨n, hn⟩ := exists_drawFresh_range r.calledNumbers hnd hrange hlen
  obtain ⟨hnot, h1, h75⟩ := drawFresh_spec _ _ _ hn
  obtain ⟨room, iact⟩ := s
  simp only at hr hiact
  subst hr
  subst hiact
  refine ⟨n, { r with calledNumbers := r.calledNumbers ++ [n] }, hnot, h1, h75, ?_, rfl⟩
  simp [numberTick, callNextNumber, hact, hlen, hn]

/-- Reachability of one server state from another through handler events. -/
inductive Reaches : ServerState → ServerState → Prop
  | refl (s : ServerState) : Reaches s s
  | step {s t : ServerState} (h : Reaches s t) (e : GameEvent) : Reaches s (handleEvent t e).1

/-- All parts of claim C6 about a state: the calledNumbers invariants, the
append-only step property for every event, and the behavior of a caller tick
(stopping without change when the room is done or inactive, appending exactly
one fresh number in `[1,75]` otherwise). -/
def CalledNumbersOk (s : ServerState) : Prop :=
  (∀ r, s.room = some r →
    (∀ n ∈ r.calledNumbers, 1 ≤ n ∧ n ≤ 75) ∧ r.calledNumbers.Nodup ∧
      r.calledNumbers.length ≤ 75) ∧
  (∀ e r r', s.room = some r → (handleEvent s e).1.room = some r' →
    r'.calledNumbers = r.calledNumbers ∨
    ∃ n, n ∉ r.calledNumbers ∧ 1 ≤ n ∧ n ≤ 75 ∧ r.calledNumbers.length < 75 ∧
      r'.calledNumbers = r.calledNumbers ++ [n]) ∧
  (∀ draws r, s.room = some r → ¬(r.isGameActive = true ∧ r.calledNumbers.length < 75) →
    (numberTick s draws).1.room = s.room ∧ (numberTick s draws).1.intervalActive = false ∧
    (numberTick s draws).2 = []) ∧
  (∀ r, s.room = some r → s.intervalActive = true → r.isGameActive = true →
    r.calledNumbers.length < 75 →
    ∃ n r', n ∉ r.calledNumbers ∧ 1 ≤ n ∧ n ≤ 75 ∧
      (numberTick s (List.range 75)).1.room = some r' ∧
      r'.calledNumbers = r.calledNumbers ++ [n])

theorem reaches_calledInvariant (init s : ServerState)
    (hinit : ∀ r, init.room = some r → r.calledNumbers = [])
    (h : Reaches init s) :
    ∀ r, s.room = some r →
      (∀ n ∈ r.calledNumbers, 1 ≤ n ∧ n ≤ 75) ∧ r.calledNumbers.Nodup ∧
        r.calledNumbers.length ≤ 75 := by
  induction h with
  | refl =>
    intro r hr
    rw [hinit r hr]
    simp
  | step hreach e ih =>
    rename_i t
    intro r' hr'
    cases htr : t.room with
    | none =>
      rw [handleEvent_room_none t e htr] at hr'
      exact absurd hr' (by simp)
    | some r =>
      obtain ⟨hrange, hnd, hlen⟩ := ih r htr
      rcases handleEvent_calledStep t e r r' htr hr' with heq | ⟨n, hn1, hn2, hn3, hn4, hn5⟩
      · rw [heq]
        exact ⟨hrange, hnd, hlen⟩
      · rw [hn5]
        refine ⟨?_, ?_, ?_⟩
        · intro m hm
          rcases List.mem_append.mp hm with hm | hm
          · exact hrange m hm
          · obtain rfl : m = n := by simpa using hm
            exact ⟨hn2, hn3⟩
        · simp [List.nodup_append, hnd, hn1]
        · simp only [List.length_append, List.length_cons, List.length_nil]
          omega

/-- C6: along every room lifetime (every state reachable from room creation),
the called numbers all lie in `[1,75]`, are pairwise distinct and number at
most 75; every handler event either leaves the sequence unchanged or appends
exactly one fresh number at the end; a caller tick on a non-active or
exhausted room stops (clearing the interval) without touching the sequence or
emitting anything; and a tick on an active, non-exhausted room appends exactly
one fresh number in `[1,75]`. -/
theorem c6_calledNumbers_lifecycle (hostId hostName sock : String) (pool : List Card)
    (now : Nat) (gid : String) (s : ServerState)
    (h : Reaches (createGame hostId hostName sock pool now gid).1 s) :
    CalledNumbersOk s := by
  have hinv := reaches_calledInvariant _ s
    (fun r hr => createGame_called_nil hostId hostName sock pool now gid r hr) h
  refine ⟨hinv, ?_, ?_, ?_⟩
  · intro e r r' hr hr'
    exact handleEvent_calledStep s e r r' hr hr'
  · intro draws r hr hguard
    exact numberTick_stops s draws r hr hguard
  · intro r hr hiact hact hlen
    obtain ⟨hrange, hnd, -⟩ := hinv r hr
    exact numberTick_appends s r hr hiact hact hlen hnd hrange

/-- C6 witness: the freshly created room reached by the empty event sequence. -/
theorem c6_calledNumbers_lifecycle_witness :
    CalledNumbersOk (createGame "H" "Host" "s1" [] 0 "G").1 :=
  c6_calledNumbers_lifecycle "H" "Host" "s1" [] 0 "G" _ (Reaches.refl _)

end Bingo
